import Mathlib

/-!
# Verification of the MarketTwits summarizer core

A shallow embedding of the daily-digest pipeline of the
`MarketTwitsSummarizerLambda` repository, together with proofs about it.

Conventions of the embedding:

* UTC instants are modelled as microseconds since the epoch (`Nat`),
  matching the microsecond resolution of Python `datetime`.
* The Telegram channel source (Telethon) is an external collaborator; a scan
  is modelled as a list of events, each either a yielded message
  (`Except.ok`) or an exception raised during iteration (`Except.error`).
  Telethon's `limit=` argument caps the number of yielded events.
* Python strings are modelled as `String` / `List Char` (sequences of code
  points); `len`, slicing and concatenation operate on code points exactly
  as in Python.
* Fallible Python code returning `None` on caught exceptions is modelled
  with `Option`.
-/

namespace MarketTwits

/-! ## Time model (datetime as microseconds since epoch, UTC) -/

/-- Microseconds in one day. -/
def usPerDay : Nat := 86400000000

/-- `daily_job._calculate_target_date`: `now - timedelta(days=1)`. -/
def calculate_target_date (now_utc : Nat) : Nat := now_utc - usPerDay

/-- `target_date.replace(hour=0, minute=0, second=0, microsecond=0, tzinfo=utc)`:
the midnight opening the UTC calendar day containing `target_date`
(`news_dumper.py` line 112). -/
def window_start (target_date : Nat) : Nat := target_date / usPerDay * usPerDay

/-- `target_date.replace(hour=23, minute=59, second=59, microsecond=999999, tzinfo=utc)`
(`news_dumper.py` line 115). -/
def window_end (target_date : Nat) : Nat := window_start target_date + (usPerDay - 1)

/-! ## Message models -/

/-- A message yielded by `client.iter_messages`.  `date` is `none` when the
Telethon message has a falsy `date` attribute (`if not message.date: continue`);
an attached date is already converted to UTC microseconds
(`message.date.astimezone(timezone.utc)` is the identity in this model). -/
structure TgMessage where
  msg_id : Int
  text : String
  date : Option Nat
  views : Option Int
  forwards : Option Int
deriving DecidableEq

/-- `src/models/news.py` `NewsItem` (as built by `dump_news_for_date`,
which only stores messages carrying a date and non-empty text). -/
structure NewsItem where
  message_id : Int
  text : String
  date : Nat
  views : Option Int
  forwards : Option Int
deriving DecidableEq

/-- One event of a channel scan: a yielded message or an exception raised
while iterating. -/
abbrev ScanEvent := Except Unit TgMessage

/-- The `NewsItem` built at `news_dumper.py` lines 143-151. -/
def toNewsItem (m : TgMessage) (d : Nat) : NewsItem :=
  ⟨m.msg_id, m.text, d, m.views, m.forwards⟩

/-! ## The Retriever: `TelegramDumper.dump_news_for_date` -/

/-- The `async for` loop of `dump_news_for_date` (`news_dumper.py` lines
129-151).  `none` models an exception escaping the loop (caught by the
enclosing `except Exception: return []`); `some items` is the normal exit,
by stream exhaustion or by the `break` on a message predating
`target_start`. -/
def dumpScan (target_start : Nat) : List ScanEvent → Option (List NewsItem)
  | [] => some []
  | Except.error _ :: _ => none
  | Except.ok m :: rest =>
    match m.date with
    | none => dumpScan target_start rest
    | some d =>
      if d < target_start then
        some []
      else
        match dumpScan target_start rest with
        | none => none
        | some items =>
          if m.text = "" then some items else some (toNewsItem m d :: items)

/-- `TelegramDumper.dump_news_for_date` (`news_dumper.py` lines 101-158).
`connect_ok` is the outcome of the lazy `connect()`; `stream` is what
`iter_messages(channel, offset_date=target_end, limit=2000)` would yield,
of which Telethon's `limit` delivers at most the first 2000 events. -/
def dump_news_for_date (target_date : Nat) (connect_ok : Bool)
    (stream : List ScanEvent) : List NewsItem :=
  if connect_ok = false then []
  else
    match dumpScan (window_start target_date) (stream.take 2000) with
    | none => []
    | some items => items

/-! ## Decidable side conditions used in hypotheses -/

/-- The event's message (if any) carries no date later than `ub`. -/
def okDateLe (ub : Nat) : ScanEvent → Bool
  | Except.ok m =>
    match m.date with
    | some d => decide (d ≤ ub)
    | none => true
  | Except.error _ => true

/-- The timestamps carried by the yielded messages of a scan, in order. -/
def datesOf (stream : List ScanEvent) : List Nat :=
  stream.filterMap fun e =>
    match e with
    | Except.ok m => m.date
    | Except.error _ => none

/-- Strictly descending sequence check. -/
def strictDescBool : List Nat → Bool
  | [] => true
  | [_] => true
  | a :: b :: rest => decide (b < a) && strictDescBool (b :: rest)

/-! ## Helper lemmas about the scan -/

theorem dumpScan_mem_bounds (target_start ub : Nat) :
    ∀ (l : List ScanEvent), (∀ e ∈ l, okDateLe ub e = true) →
      ∀ items, dumpScan target_start l = some items →
        ∀ it ∈ items, target_start ≤ it.date ∧ it.date ≤ ub := by
  intro l
  induction l with
  | nil =>
    intro _ items h it hit
    simp only [dumpScan, Option.some.injEq] at h
    subst h
    simp at hit
  | cons e rest ih =>
    intro hub items h it hit
    match e with
    | Except.error _ => simp [dumpScan] at h
    | Except.ok m =>
      have hm : okDateLe ub (Except.ok m) = true := hub _ (by simp)
      have hrest : ∀ e ∈ rest, okDateLe ub e = true := by
        intro e he
        exact hub e (by simp [he])
      match hd : m.date with
      | none =>
        simp only [dumpScan, hd] at h
        exact ih hrest items h it hit
      | some d =>
        simp only [dumpScan, hd] at h
        by_cases hlt : d < target_start
        · simp only [if_pos hlt, Option.some.injEq] at h
          subst h
          simp at hit
        · simp only [if_neg hlt] at h
          match hr : dumpScan target_start rest with
          | none => rw [hr] at h; simp at h
          | some items' =>
            rw [hr] at h
            have hdub : d ≤ ub := by
              simp only [okDateLe, hd, decide_eq_true_eq] at hm
              exact hm
            by_cases htxt : m.text = ""
            · simp only [htxt, if_true, eq_self_iff_true, if_pos, Option.some.injEq] at h
              subst h
              exact ih hrest items' hr it hit
            · simp only [if_neg htxt, Option.some.injEq] at h
              subst h
              rcases List.mem_cons.mp hit with hh | ht
              · subst hh
                exact ⟨Nat.le_of_not_lt hlt, hdub⟩
              · exact ih hrest items' hr it ht

/-- C1: For every run of the Retriever, the digest window is computed as
exactly [yesterday 00:00:00.000000 UTC, yesterday 23:59:59.999999 UTC]
relative to the run's reference instant (now minus one day) — stated as: an
instant lies in the closed window iff it falls on the same UTC calendar day
as `now - 1 day` — and, assuming the channel source yields messages with
timestamps at or before the requested offset (`window_end`) in strictly
descending order, every `NewsItem` returned by `dump_news_for_date` has its
UTC timestamp inside that closed window. -/
theorem retriever_window_contains (now_utc : Nat) (connect_ok : Bool)
    (stream : List ScanEvent)
    (hnow : usPerDay ≤ now_utc)
    (hoff : stream.all (okDateLe (window_end (calculate_target_date now_utc))) = true)
    (_hdesc : strictDescBool (datesOf stream) = true) :
    (∀ t : Nat,
      (window_start (calculate_target_date now_utc) ≤ t ∧
        t ≤ window_end (calculate_target_date now_utc)) ↔
      t / usPerDay = calculate_target_date now_utc / usPerDay) ∧
    (∀ it ∈ dump_news_for_date (calculate_target_date now_utc) connect_ok stream,
      window_start (calculate_target_date now_utc) ≤ it.date ∧
        it.date ≤ window_end (calculate_target_date now_utc)) := by
  constructor
  · intro t
    simp only [window_start, window_end, usPerDay, calculate_target_date] at *
    omega
  · intro it hit
    unfold dump_news_for_date at hit
    by_cases hc : connect_ok = false
    · simp [hc] at hit
    · rw [if_neg hc] at hit
      match hr : dumpScan (window_start (calculate_target_date now_utc)) (stream.take 2000) with
      | none => rw [hr] at hit; simp at hit
      | some items =>
        rw [hr] at hit
        refine dumpScan_mem_bounds _ _ (stream.take 2000) ?_ items hr it hit
        intro e he
        exact (List.all_eq_true.mp hoff) e (List.take_subset _ _ he)

/-- Witness for `retriever_window_contains` at a concrete run: reference
instant two days after the epoch, a single in-window message. -/
theorem retriever_window_contains_witness :
    (∀ t : Nat,
      (window_start (calculate_target_date (2 * usPerDay)) ≤ t ∧
        t ≤ window_end (calculate_target_date (2 * usPerDay))) ↔
      t / usPerDay = calculate_target_date (2 * usPerDay) / usPerDay) ∧
    (∀ it ∈ dump_news_for_date (calculate_target_date (2 * usPerDay)) true
        [Except.ok ⟨1, "hi", some (usPerDay + 5), none, none⟩],
      window_start (calculate_target_date (2 * usPerDay)) ≤ it.date ∧
        it.date ≤ window_end (calculate_target_date (2 * usPerDay))) :=
  retriever_window_contains (2 * usPerDay) true
    [Except.ok ⟨1, "hi", some (usPerDay + 5), none, none⟩]
    (by decide) (by decide) (by decide)

/-! ## The claim's reference scan (C2) -/

/-- The loop's keep-scanning condition: the message does not predate
`target_start` (a date-less message is skipped by `continue`, not `break`). -/
def noBreakB (target_start : Nat) (m : TgMessage) : Bool :=
  match m.date with
  | some d => decide (target_start ≤ d)
  | none => true

/-- The loop's acceptance step: a dated message with non-empty text becomes
a `NewsItem`. -/
def acceptItem (m : TgMessage) : Option NewsItem :=
  match m.date with
  | some d => if m.text = "" then none else some (toNewsItem m d)
  | none => none

/-- Written from the claim's words (C2): the scan terminates at the first
message predating `target_start`, and every message before that point that
is in-window with non-empty text is included, in scan order. -/
def claim_scan (target_start : Nat) (msgs : List TgMessage) : List NewsItem :=
  (msgs.takeWhile (noBreakB target_start)).filterMap acceptItem

/-- The event is a yielded message, not an exception. -/
def isOkB : ScanEvent → Bool
  | Except.ok _ => true
  | Except.error _ => false

/-- The messages yielded by a scan, exceptions dropped. -/
def okMessages (stream : List ScanEvent) : List TgMessage :=
  stream.filterMap fun e =>
    match e with
    | Except.ok m => some m
    | Except.error _ => none

theorem okMessages_map_ok (l : List TgMessage) :
    okMessages (l.map Except.ok) = l := by
  induction l with
  | nil => rfl
  | cons m rest ih => simp [okMessages, List.filterMap_cons] at ih ⊢; exact ih

theorem datesOf_map_ok (l : List TgMessage) :
    datesOf (l.map Except.ok) = l.filterMap TgMessage.date := by
  induction l with
  | nil => rfl
  | cons m rest ih =>
    simp only [datesOf, List.map_cons, List.filterMap_cons] at ih ⊢
    cases m.date <;> simp [ih]

/-- On an exception-free scan, the loop computes exactly the reference scan. -/
theorem dumpScan_map_ok (target_start : Nat) (l : List TgMessage) :
    dumpScan target_start (l.map Except.ok) = some (claim_scan target_start l) := by
  induction l with
  | nil => rfl
  | cons m rest ih =>
    simp only [List.map_cons, dumpScan]
    match hd : m.date with
    | none =>
      have hnb : noBreakB target_start m = true := by simp [noBreakB, hd]
      have hacc : acceptItem m = none := by simp [acceptItem, hd]
      simp [claim_scan, List.takeWhile_cons, hnb, List.filterMap_cons, hacc] at ih ⊢
      exact ih
    | some d =>
      dsimp only
      by_cases hlt : d < target_start
      · have hnb : noBreakB target_start m = false := by
          simp [noBreakB, hd]; omega
        simp [hlt, claim_scan, List.takeWhile_cons, hnb]
      · have hnb : noBreakB target_start m = true := by
          simp [noBreakB, hd]; omega
        rw [if_neg hlt, ih]
        by_cases htxt : m.text = ""
        · have hacc : acceptItem m = none := by simp [acceptItem, hd, htxt]
          simp [claim_scan, List.takeWhile_cons, hnb, List.filterMap_cons, hacc, htxt]
        · have hacc : acceptItem m = some (toNewsItem m d) := by
            simp [acceptItem, hd, htxt]
          simp [claim_scan, List.takeWhile_cons, hnb, List.filterMap_cons, hacc, htxt]

theorem all_ok_eq_map (l : List ScanEvent) (h : l.all isOkB = true) :
    l = (okMessages l).map Except.ok := by
  induction l with
  | nil => rfl
  | cons e rest ih =>
    simp only [List.all_cons, Bool.and_eq_true] at h
    match e with
    | Except.error _ => simp [isOkB] at h
    | Except.ok m =>
      simp only [okMessages, List.filterMap_cons, List.map_cons]
      simp only [okMessages] at ih
      exact congrArg _ (ih h.2)

/-- C2 (amended): the scan only examines the first 2000 yielded events
(Telethon's `limit=2000`); restricted to that prefix, an exception-free scan
terminates at the first message predating `DigestWindow.start` and includes
every in-window non-empty-text message before that point, in scan order —
i.e. it equals the claim's reference scan of the first 2000 messages. -/
theorem scan_early_exit_bounded (target_date : Nat) (stream : List ScanEvent)
    (herr : stream.all isOkB = true) :
    dump_news_for_date target_date true stream =
      claim_scan (window_start target_date) (okMessages (stream.take 2000)) := by
  have h2 : (stream.take 2000).all isOkB = true := by
    rw [List.all_eq_true] at herr ⊢
    exact fun e he => herr e (List.take_subset _ _ he)
  have h3 := all_ok_eq_map _ h2
  unfold dump_news_for_date
  rw [if_neg (by simp)]
  conv_lhs => rw [h3]
  rw [dumpScan_map_ok]

/-- Witness for `scan_early_exit_bounded`: a three-message exception-free
scan (one accepted, one empty-text, one below the window causing the break). -/
theorem scan_early_exit_bounded_witness :
    dump_news_for_date usPerDay true
        [Except.ok ⟨1, "a", some (window_start usPerDay + 5), none, none⟩,
         Except.ok ⟨2, "", some (window_start usPerDay + 3), none, none⟩,
         Except.ok ⟨3, "b", some (window_start usPerDay - 1), none, none⟩] =
      claim_scan (window_start usPerDay)
        (okMessages
          (List.take 2000
            [Except.ok ⟨1, "a", some (window_start usPerDay + 5), none, none⟩,
             Except.ok ⟨2, "", some (window_start usPerDay + 3), none, none⟩,
             Except.ok ⟨3, "b", some (window_start usPerDay - 1), none, none⟩])) :=
  scan_early_exit_bounded usPerDay _ (by decide)

/-! ## C2 counterexample: more than 2000 in-window messages -/

/-- A one-field-varying in-window message used by the counterexample. -/
def cexMsg (d : Nat) : TgMessage := ⟨0, "t", some d, none, none⟩

/-- `n` messages with strictly descending dates `d, d-1, …, d-n+1`. -/
def descMsgs : Nat → Nat → List TgMessage
  | 0, _ => []
  | n + 1, d => cexMsg d :: descMsgs n (d - 1)

/-- The corresponding date list. -/
def descDates : Nat → Nat → List Nat
  | 0, _ => []
  | n + 1, d => d :: descDates n (d - 1)

theorem descMsgs_length (n d : Nat) : (descMsgs n d).length = n := by
  induction n generalizing d with
  | zero => rfl
  | succ n ih => simp [descMsgs, ih]

theorem descMsgs_take (m : Nat) :
    ∀ n d, m ≤ n → (descMsgs n d).take m = descMsgs m d := by
  induction m with
  | zero => intro n d _; rfl
  | succ m ih =>
    intro n d h
    match n with
    | n' + 1 =>
      simp only [descMsgs, List.take_succ_cons]
      rw [ih n' (d - 1) (Nat.le_of_succ_le_succ h)]

theorem descMsgs_mem (n : Nat) :
    ∀ d, ∀ m ∈ descMsgs n d,
      ∃ d', m.date = some d' ∧ d + 1 - n ≤ d' ∧ d' ≤ d ∧ m.text = "t" := by
  induction n with
  | zero => intro d m hm; simp [descMsgs] at hm
  | succ n ih =>
    intro d m hm
    rcases List.mem_cons.mp hm with h | h
    · subst h
      exact ⟨d, rfl, by omega, Nat.le_refl d, rfl⟩
    · obtain ⟨d', h1, h2, h3, h4⟩ := ih (d - 1) m h
      exact ⟨d', h1, by omega, by omega, h4⟩

theorem descMsgs_dates (n : Nat) :
    ∀ d, (descMsgs n d).filterMap TgMessage.date = descDates n d := by
  induction n with
  | zero => intro d; rfl
  | succ n ih =>
    intro d
    simp only [descMsgs, descDates, List.filterMap_cons, cexMsg]
    rw [ih]

theorem strictDesc_descDates_append (n : Nat) :
    ∀ d x, n ≤ d → x < d - n →
      strictDescBool (descDates (n + 1) d ++ [x]) = true := by
  induction n with
  | zero =>
    intro d x _ hx
    simp only [descDates, List.cons_append, List.nil_append]
    simp [strictDescBool]
    omega
  | succ n ih =>
    intro d x hd hx
    have h1 : descDates (n + 1 + 1) d ++ [x] =
        d :: (descDates (n + 1) (d - 1) ++ [x]) := by
      simp [descDates]
    have h2 : descDates (n + 1) (d - 1) ++ [x] =
        (d - 1) :: (descDates n (d - 1 - 1) ++ [x]) := by
      simp [descDates]
    have ihx := ih (d - 1) x (by omega) (by omega)
    rw [h1, h2]
    rw [h2] at ihx
    simp only [strictDescBool, Bool.and_eq_true, decide_eq_true_eq] at ihx ⊢
    exact ⟨by omega, ihx⟩

theorem filterMap_all_some_length {α β : Type} (f : α → Option β) :
    ∀ l : List α, (∀ a ∈ l, (f a).isSome) → (l.filterMap f).length = l.length := by
  intro l
  induction l with
  | nil => intro _; rfl
  | cons a rest ih =>
    intro h
    have ha := h a (by simp)
    match hf : f a with
    | none => rw [hf] at ha; simp at ha
    | some b =>
      simp only [List.filterMap_cons, hf, List.length_cons]
      rw [ih (fun x hx => h x (by simp [hx]))]

/-- The counterexample scan: 2001 strictly descending in-window non-empty
messages starting at the window end, then one below-window message. -/
def c2stream : List ScanEvent :=
  (descMsgs 2001 (window_end usPerDay) ++ [cexMsg (window_start usPerDay - 1)]).map
    Except.ok

/-- Counterexample to C2 as stated: `c2stream` satisfies all of the claim's
assumptions (strictly descending timestamps starting at the window end, at
or before the offset), yet `dump_news_for_date` returns 2000 items where
the claim's scan — terminate only at the first below-window message, losing
nothing — returns 2001: Telethon's `limit=2000` cuts the scan short. -/
theorem scan_unbounded_claim_cex :
    strictDescBool (datesOf c2stream) = true ∧
    (datesOf c2stream).head? = some (window_end usPerDay) ∧
    c2stream.all (okDateLe (window_end usPerDay)) = true ∧
    (dump_news_for_date usPerDay true c2stream).length = 2000 ∧
    (claim_scan (window_start usPerDay) (okMessages c2stream)).length = 2001 := by
  have hwe : window_end usPerDay = 2 * usPerDay - 1 := by
    simp only [window_end, window_start, usPerDay]
  have hws : window_start usPerDay = usPerDay := by
    simp only [window_start, usPerDay]
  have hdates : datesOf c2stream =
      descDates 2001 (window_end usPerDay) ++ [window_start usPerDay - 1] := by
    rw [c2stream, datesOf_map_ok, List.filterMap_append, descMsgs_dates]
    simp [cexMsg]
  refine ⟨?_, ?_, ?_, ?_, ?_⟩
  · rw [hdates]
    have : (2001 : Nat) = 2000 + 1 := rfl
    rw [this]
    refine strictDesc_descDates_append 2000 (window_end usPerDay)
      (window_start usPerDay - 1) ?_ ?_
    · rw [hwe]; simp [usPerDay]
    · rw [hwe, hws]; simp [usPerDay]
  · rw [hdates]
    have : descDates 2001 (window_end usPerDay) =
        window_end usPerDay :: descDates 2000 (window_end usPerDay - 1) := rfl
    rw [this]
    rfl
  · rw [List.all_eq_true]
    intro e he
    simp only [c2stream, List.mem_map] at he
    obtain ⟨m, hm, rfl⟩ := he
    rcases List.mem_append.mp hm with h | h
    · obtain ⟨d', h1, _, h3, _⟩ := descMsgs_mem 2001 (window_end usPerDay) m h
      simp [okDateLe, h1, h3]
    · simp only [List.mem_singleton] at h
      subst h
      simp only [okDateLe, cexMsg, decide_eq_true_eq]
      rw [hwe, hws]; simp [usPerDay]
  · unfold dump_news_for_date
    rw [if_neg (by simp)]
    have hinner : (descMsgs 2001 (window_end usPerDay) ++
        [cexMsg (window_start usPerDay - 1)]).take 2000 =
        descMsgs 2000 (window_end usPerDay) := by
      rw [List.take_append_eq_append_take, descMsgs_length,
        descMsgs_take 2000 2001 _ (by norm_num)]
      norm_num
    have htake : c2stream.take 2000 = (descMsgs 2000 (window_end usPerDay)).map Except.ok := by
      rw [c2stream, ← List.map_take, hinner]
    rw [htake, dumpScan_map_ok]
    have hall : (descMsgs 2000 (window_end usPerDay)).takeWhile
        (noBreakB (window_start usPerDay)) = descMsgs 2000 (window_end usPerDay) := by
      rw [List.takeWhile_eq_self_iff]
      intro m hm
      obtain ⟨d', h1, h2, _, _⟩ := descMsgs_mem 2000 (window_end usPerDay) m hm
      simp only [noBreakB, h1, decide_eq_true_eq]
      rw [hwe] at h2
      rw [hws]
      simp only [usPerDay] at h2 ⊢
      omega
    simp only [claim_scan, hall]
    rw [filterMap_all_some_length]
    · exact descMsgs_length 2000 _
    · intro m hm
      obtain ⟨d', h1, _, _, h4⟩ := descMsgs_mem 2000 (window_end usPerDay) m hm
      simp [acceptItem, h1, h4]
  · rw [c2stream, okMessages_map_ok]
    have hsplit : (descMsgs 2001 (window_end usPerDay) ++
        [cexMsg (window_start usPerDay - 1)]).takeWhile (noBreakB (window_start usPerDay)) =
        descMsgs 2001 (window_end usPerDay) ++
          ([cexMsg (window_start usPerDay - 1)].takeWhile (noBreakB (window_start usPerDay))) := by
      refine List.takeWhile_append_of_pos ?_
      intro m hm
      obtain ⟨d', h1, h2, _, _⟩ := descMsgs_mem 2001 (window_end usPerDay) m hm
      simp only [noBreakB, h1, decide_eq_true_eq]
      rw [hwe] at h2
      rw [hws]
      simp only [usPerDay] at h2 ⊢
      omega
    have hlow : [cexMsg (window_start usPerDay - 1)].takeWhile
        (noBreakB (window_start usPerDay)) = [] := by
      simp only [List.takeWhile_cons, noBreakB, cexMsg]
      rw [hws]
      norm_num [usPerDay]
    simp only [claim_scan, hsplit, hlow, List.append_nil]
    rw [filterMap_all_some_length]
    · exact descMsgs_length 2001 _
    · intro m hm
      obtain ⟨d', h1, _, _, h4⟩ := descMsgs_mem 2001 (window_end usPerDay) m hm
      simp [acceptItem, h1, h4]

/-! ## C5: exceptions during the scan -/

theorem dumpScan_reaches_error (target_start : Nat) (pre : List TgMessage)
    (rest : List ScanEvent)
    (hpre : ∀ m ∈ pre, noBreakB target_start m = true) :
    dumpScan target_start (pre.map Except.ok ++ Except.error () :: rest) = none := by
  induction pre with
  | nil => rfl
  | cons m pre ih =>
    have hm := hpre m (by simp)
    have hrest : ∀ x ∈ pre, noBreakB target_start x = true := by
      intro x hx
      exact hpre x (by simp [hx])
    simp only [List.map_cons, List.cons_append, dumpScan]
    match hd : m.date with
    | none => exact ih hrest
    | some d =>
      dsimp only
      have hge : ¬ d < target_start := by
        simp only [noBreakB, hd, decide_eq_true_eq] at hm
        omega
      rw [if_neg hge]
      simp only [List.append_eq]
      rw [ih hrest]

/-- C5: For every exception raised during the channel scan — reached after
zero or more already-accepted messages, i.e. within the first 2000 yielded
events and before any message triggers the break — `dump_news_for_date`
returns the empty list, never a partial result; and a connection failure
likewise yields the empty list. -/
theorem scan_exception_empty (target_date : Nat) (pre : List TgMessage)
    (rest : List ScanEvent)
    (hlen : pre.length < 2000)
    (hpre : pre.all (noBreakB (window_start target_date)) = true) :
    dump_news_for_date target_date true
      (pre.map Except.ok ++ Except.error () :: rest) = [] ∧
    ∀ s : List ScanEvent, dump_news_for_date target_date false s = [] := by
  constructor
  · unfold dump_news_for_date
    rw [if_neg (by simp)]
    obtain ⟨k, hk⟩ : ∃ k, 2000 - pre.length = k + 1 := ⟨2000 - pre.length - 1, by omega⟩
    rw [List.take_append_eq_append_take, List.length_map,
      List.take_of_length_le (by rw [List.length_map]; omega), hk, List.take_succ_cons,
      dumpScan_reaches_error (window_start target_date) pre _
        (fun m hm => (List.all_eq_true.mp hpre) m hm)]
  · intro s
    rfl

/-- Witness for `scan_exception_empty`: one accepted message, then an
exception; and the connection-failure case. -/
theorem scan_exception_empty_witness :
    dump_news_for_date usPerDay true
      ([(⟨1, "a", some (window_start usPerDay + 1), none, none⟩ : TgMessage)].map
          Except.ok ++ Except.error () :: []) = [] ∧
    ∀ s : List ScanEvent, dump_news_for_date usPerDay false s = [] :=
  scan_exception_empty usPerDay
    [⟨1, "a", some (window_start usPerDay + 1), none, none⟩] []
    (by norm_num) (by decide)

/-! ## The Orchestrator's delivery-and-persistence step (C3, C6) -/

/-- The outcome of one `send_message` call for one recipient: returned
`True`, returned `False`, or raised an exception. -/
inductive SendOutcome where
  | ok
  | failed
  | exn
deriving DecidableEq

/-- An observable collaborator call made by `_send_and_save_summary`:
a database save attempt (with its success/failure outcome) or a delivery
attempt to a chat id. -/
inductive Ev where
  | save (db_ok : Bool)
  | send (chat_id : Int)
deriving DecidableEq

/-- The delivery attempts of a trace, in order. -/
def sendsOf (t : List Ev) : List Int :=
  t.filterMap fun e =>
    match e with
    | Ev.send i => some i
    | Ev.save _ => none

/-- The fan-out loop of `_send_and_save_summary`: every chat id is
attempted, in roster order, regardless of earlier outcomes. -/
def fanout_events (recips : List (Int × SendOutcome)) : List Ev :=
  recips.map fun r => Ev.send r.1

/-- `success_count` after the loop. -/
def success_count (recips : List (Int × SendOutcome)) : Nat :=
  (recips.filter fun r => r.2 = SendOutcome.ok).length

/-- `src/services/daily_job.py` `_send_and_save_summary` (lines 153-202):
save to the database first (a fault is caught and logged), then, if the
roster is empty, return `False`; otherwise send to every chat id and return
whether at least one send succeeded.  Returns the result together with the
trace of collaborator calls. -/
def dj_send_and_save_summary (recips : List (Int × SendOutcome)) (db_ok : Bool) :
    Bool × List Ev :=
  if recips.length = 0 then (false, [Ev.save db_ok])
  else (decide (0 < success_count recips), Ev.save db_ok :: fanout_events recips)

/-- `aws_lambda.py` `_send_and_save_summary` (lines 527-575): if the roster
is empty, return `False` immediately (no save); otherwise send to every
chat id, then save to the database (a fault is caught and logged), and
return whether at least one send succeeded. -/
def aws_send_and_save_summary (recips : List (Int × SendOutcome)) (db_ok : Bool) :
    Bool × List Ev :=
  if recips.length = 0 then (false, [])
  else (decide (0 < success_count recips), fanout_events recips ++ [Ev.save db_ok])

theorem sendsOf_fanout (recips : List (Int × SendOutcome)) :
    sendsOf (fanout_events recips) = recips.map Prod.fst := by
  induction recips with
  | nil => rfl
  | cons r rest ih =>
    simp only [fanout_events, sendsOf, List.map_cons, List.filterMap_cons] at ih ⊢
    exact congrArg _ ih

theorem sendsOf_save_cons (b : Bool) (t : List Ev) :
    sendsOf (Ev.save b :: t) = sendsOf t := by
  simp [sendsOf, List.filterMap_cons]

theorem sendsOf_append_save (b : Bool) (t : List Ev) :
    sendsOf (t ++ [Ev.save b]) = sendsOf t := by
  simp [sendsOf, List.filterMap_append, List.filterMap_cons]

theorem success_count_pos_iff (recips : List (Int × SendOutcome)) :
    0 < success_count recips ↔ ∃ r ∈ recips, r.2 = SendOutcome.ok := by
  unfold success_count
  rw [← List.countP_eq_length_filter, List.countP_pos_iff]
  simp

/-- C3: in both orchestrator variants, the fan-out attempts delivery to all
N subscribers in roster order regardless of earlier failures or exceptions,
and the step returns overall success iff at least one delivery succeeded. -/
theorem fanout_isolation (recips : List (Int × SendOutcome)) (db_ok : Bool) :
    sendsOf (dj_send_and_save_summary recips db_ok).2 = recips.map Prod.fst ∧
    sendsOf (aws_send_and_save_summary recips db_ok).2 = recips.map Prod.fst ∧
    ((dj_send_and_save_summary recips db_ok).1 = true ↔
      ∃ r ∈ recips, r.2 = SendOutcome.ok) ∧
    (aws_send_and_save_summary recips db_ok).1 = (dj_send_and_save_summary recips db_ok).1 := by
  unfold dj_send_and_save_summary aws_send_and_save_summary
  by_cases h : recips.length = 0
  · have hnil : recips = [] := List.length_eq_zero.mp h
    subst hnil
    simp [sendsOf]
  · rw [if_neg h, if_neg h]
    refine ⟨?_, ?_, ?_, rfl⟩
    · rw [sendsOf_save_cons, sendsOf_fanout]
    · rw [sendsOf_append_save, sendsOf_fanout]
    · simp only [decide_eq_true_eq]
      exact success_count_pos_iff recips

/-! ## C6: persistence placement and fault isolation -/

def isSendEv : Ev → Bool
  | Ev.send _ => true
  | Ev.save _ => false

def isSaveEv : Ev → Bool
  | Ev.save _ => true
  | Ev.send _ => false

/-- The trace contains a save attempt, and no delivery attempt precedes it. -/
def persisted_before_delivery (t : List Ev) : Bool :=
  (t.takeWhile isSendEv).isEmpty && t.any isSaveEv

/-- Counterexample to C6 as stated: with a one-subscriber roster, the
`aws_lambda.py` variant reaches the delivery stage and attempts the send,
yet its save attempt comes after the delivery, not before (the
`daily_job.py` variant does save first). -/
theorem persist_order_cex :
    persisted_before_delivery
        (aws_send_and_save_summary [((1 : Int), SendOutcome.ok)] true).2 = false ∧
    sendsOf (aws_send_and_save_summary [((1 : Int), SendOutcome.ok)] true).2 = [1] ∧
    persisted_before_delivery
        (dj_send_and_save_summary [((1 : Int), SendOutcome.ok)] true).2 = true := by
  decide

/-- C6 (amended): the `daily_job.py` orchestrator persists the rendered
message before fan-out delivery begins; the `aws_lambda.py` variant
persists only after all delivery attempts, and skips persistence entirely
when the roster is empty; in both variants a persistence fault is caught
and swallowed — the delivery attempts and the returned success flag are
identical whether the save succeeds or fails. -/
theorem persist_order_swallow (recips : List (Int × SendOutcome))
    (db_ok db_ok' : Bool) :
    (dj_send_and_save_summary recips db_ok).2 =
      Ev.save db_ok :: fanout_events recips ∧
    (aws_send_and_save_summary recips db_ok).2 =
      (if recips.length = 0 then [] else fanout_events recips ++ [Ev.save db_ok]) ∧
    persisted_before_delivery (dj_send_and_save_summary recips db_ok).2 = true ∧
    (dj_send_and_save_summary recips db_ok).1 =
      (dj_send_and_save_summary recips db_ok').1 ∧
    (aws_send_and_save_summary recips db_ok).1 =
      (aws_send_and_save_summary recips db_ok').1 ∧
    sendsOf (dj_send_and_save_summary recips db_ok).2 =
      sendsOf (dj_send_and_save_summary recips db_ok').2 := by
  unfold dj_send_and_save_summary aws_send_and_save_summary
  by_cases h : recips.length = 0
  · have hnil : recips = [] := List.length_eq_zero.mp h
    subst hnil
    simp [fanout_events, persisted_before_delivery, isSendEv, isSaveEv, sendsOf]
  · rw [if_neg h, if_neg h, if_neg h, if_neg h, if_neg h]
    refine ⟨rfl, rfl, ?_, rfl, rfl, ?_⟩
    · simp [persisted_before_delivery, isSendEv, isSaveEv, List.takeWhile_cons]
    · rw [sendsOf_save_cons, sendsOf_save_cons]

/-! ## The Store accessor: `src/database/repository.py` (C7)

The `chat_ids` table (one integer column with a unique constraint) is
modelled as the list of stored ids; `IntegrityError` on a duplicate
`INSERT` is the membership test, `rowcount` of `DELETE` is the number of
matching rows.  Both functions wrap everything in an outer
`except Exception: return False`: a store or connection fault (e.g.
`get_cursor` raising on missing configuration) is caught and reported as
`False` whatever the membership state, with the transactional table left
unchanged; `store_ok` says whether such a fault occurs. -/

/-- `add_chat_id` (repository.py lines 56-82). -/
def add_chat_id (store_ok : Bool) (db : List Int) (chat_id : Int) :
    Bool × List Int :=
  if store_ok = false then (false, db)
  else if chat_id ∈ db then (false, db)
  else (true, db ++ [chat_id])

/-- `remove_chat_id` (repository.py lines 85-106). -/
def remove_chat_id (store_ok : Bool) (db : List Int) (chat_id : Int) :
    Bool × List Int :=
  if store_ok = false then (false, db)
  else
    let remaining := db.filter fun x => x ≠ chat_id
    if 0 < (db.filter fun x => x = chat_id).length then (true, remaining)
    else (false, remaining)

/-- Counterexample to C7 as stated: `add_chat_id` does not return `false`
exactly when the id is already in the roster — on a store fault the outer
`except Exception` handler returns `False` for an absent id too. -/
theorem roster_fault_cex :
    (add_chat_id false [7] 5).1 = false ∧ (5 : Int) ∉ ([7] : List Int) :=
  ⟨rfl, by decide⟩

/-- C7 (amended): in the absence of store faults, subscribing an
already-subscribed id is a no-op reported as already present —
`add_chat_id` returns `false` exactly when the id is already stored, and
then leaves the table unchanged — and removing a non-member returns
`false` and leaves the table unchanged; a store fault makes either
operation return `false` regardless of membership, with the table
unchanged. -/
theorem roster_idempotent (db : List Int) (chat_id : Int) :
    ((add_chat_id true db chat_id).1 = false ↔ chat_id ∈ db) ∧
    (chat_id ∈ db → add_chat_id true db chat_id = (false, db)) ∧
    (chat_id ∉ db → remove_chat_id true db chat_id = (false, db)) ∧
    add_chat_id false db chat_id = (false, db) ∧
    remove_chat_id false db chat_id = (false, db) := by
  refine ⟨?_, ?_, ?_, ?_, ?_⟩
  · unfold add_chat_id
    rw [if_neg (by simp)]
    by_cases h : chat_id ∈ db <;> simp [h]
  · intro h
    unfold add_chat_id
    rw [if_neg (by simp)]
    simp [h]
  · intro h
    unfold remove_chat_id
    rw [if_neg (by simp)]
    have h1 : (db.filter fun x => decide (x = chat_id)) = [] := by
      rw [List.filter_eq_nil_iff]
      intro a ha
      simp only [decide_eq_true_eq]
      intro he
      exact h (he ▸ ha)
    have h2 : (db.filter fun x => decide (x ≠ chat_id)) = db := by
      rw [List.filter_eq_self]
      intro a ha
      simp only [ne_eq, decide_not, Bool.not_eq_true', decide_eq_false_iff_not]
      intro he
      exact h (he ▸ ha)
    rw [h1]
    simp only [List.length_nil, Nat.lt_irrefl, if_false]
    rw [h2]
  · rfl
  · rfl

/-- Witness for `roster_idempotent`: adding id 5 to a fault-free roster
already holding it, and removing id 5 from a fault-free roster that does
not hold it. -/
theorem roster_idempotent_witness :
    add_chat_id true [5] 5 = (false, [5]) ∧
    remove_chat_id true [7] 5 = (false, [7]) :=
  ⟨(roster_idempotent [5] 5).2.1 (by decide),
   (roster_idempotent [7] 5).2.2.1 (by decide)⟩

/-! ## The Command Parser: `src/bot/parser.py` (C8, C10)

Python strings are sequences of code points; `str.split()` splits on runs
of whitespace discarding empty tokens, `str.lower()` lowercases each
character, `s[1:]` drops the first character. -/

/-- The ASCII whitespace characters split on by `str.split()`.  (Python
also splits on the remaining Unicode whitespace; the parser model and the
specification parser it is compared with share this helper, so the
restriction cannot bias that comparison.) -/
def pyIsSpace (c : Char) : Bool :=
  c = ' ' || c = '\t' || c = '\n' || c = '\r' || c = '\x0b' || c = '\x0c'

/-- Accumulator-based `str.split()`: `acc` holds the current token,
reversed. -/
def splitAuxW : List Char → List Char → List String
  | [], [] => []
  | [], acc => [String.mk acc.reverse]
  | c :: cs, acc =>
    if pyIsSpace c then
      match acc with
      | [] => splitAuxW cs []
      | _ :: _ => String.mk acc.reverse :: splitAuxW cs []
    else splitAuxW cs (c :: acc)

/-- Python `message_text.split()`. -/
def pySplit (s : String) : List String := splitAuxW s.data []

/-- Python `str.lower()` (ASCII case mapping). -/
def pyLower (s : String) : String := String.mk (s.data.map Char.toLower)

/-- Python `s[1:]`. -/
def pyDrop1 (s : String) : String := String.mk s.data.tail

/-- Python `message_text.startswith("/")`. -/
def startsWithSlash (s : String) : Bool :=
  match s.data with
  | c :: _ => c = '/'
  | [] => false

/-- `parse_command` (parser.py lines 10-36 and its duplicate in
`aws_lambda.py` lines 669-687). -/
def parse_command (message_text : String) : Option String × List String :=
  if message_text = "" ∨ startsWithSlash message_text = false then (none, [])
  else
    match pySplit message_text with
    | [] => (none, [])
    | p :: rest => (some (pyLower (pyDrop1 p)), rest)

/-- Written from the spec's words (§4.1): `(None, [])` if the text is empty
or does not start with `/`; otherwise the first whitespace-delimited token,
with the `/` prefix stripped when present and case-folded to lowercase, is
the command name, and all subsequent tokens are the arguments. -/
def parse_command_spec (message_text : String) : Option String × List String :=
  if message_text = "" ∨ startsWithSlash message_text = false then (none, [])
  else
    match pySplit message_text with
    | [] => (none, [])
    | tok :: rest =>
      (some (pyLower (String.mk
        (if tok.data.head? = some '/' then tok.data.tail else tok.data))), rest)

theorem splitAuxW_ne_nil (cs : List Char) :
    ∀ acc : List Char, acc ≠ [] → splitAuxW cs acc ≠ [] := by
  induction cs with
  | nil =>
    intro acc h
    match acc with
    | _ :: _ => simp [splitAuxW]
  | cons c cs ih =>
    intro acc h
    by_cases hsp : pyIsSpace c
    · match acc with
      | _ :: _ => simp [splitAuxW, hsp]
    · match acc with
      | a :: t =>
        simp only [splitAuxW, if_neg hsp]
        exact ih (c :: a :: t) (by simp)

theorem splitAuxW_head (cs : List Char) :
    ∀ acc : List Char, acc ≠ [] →
      ∃ tail rest, splitAuxW cs acc = String.mk (acc.reverse ++ tail) :: rest := by
  induction cs with
  | nil =>
    intro acc h
    match acc with
    | _ :: _ => exact ⟨[], [], by simp [splitAuxW]⟩
  | cons c cs ih =>
    intro acc h
    by_cases hsp : pyIsSpace c
    · match acc with
      | _ :: _ => exact ⟨[], splitAuxW cs [], by simp [splitAuxW, hsp]⟩
    · obtain ⟨tail, rest, hr⟩ := ih (c :: acc) (by simp)
      refine ⟨c :: tail, rest, ?_⟩
      match acc with
      | a :: t =>
        simp only [splitAuxW, if_neg hsp]
        rw [hr]
        simp [List.append_assoc]

theorem startsWithSlash_data (t : String) (h : startsWithSlash t = true) :
    ∃ cs0, t.data = '/' :: cs0 := by
  unfold startsWithSlash at h
  match hd : t.data with
  | [] => rw [hd] at h; simp at h
  | c :: cs =>
    rw [hd] at h
    simp only [decide_eq_true_eq] at h
    exact ⟨cs, by rw [h]⟩

theorem pySplit_slash (t : String) (cs0 : List Char) (hd : t.data = '/' :: cs0) :
    pySplit t = splitAuxW cs0 ['/'] := by
  unfold pySplit
  rw [hd]
  simp [splitAuxW, (by decide : pyIsSpace '/' = false)]

/-- C8: for every input string the Command Parser returns `(none, [])` when
the text is empty or does not start with `/`, and otherwise the first
whitespace-delimited token, prefix stripped and lowercased, with the
remaining tokens as arguments — stated as: the implementation coincides
with the parser written from the spec's words, and its `parts[0]` access is
total (the split of a `/`-prefixed text is never empty, so the function has
no failure modes). -/
theorem parse_command_meets_spec (t : String) :
    parse_command t = parse_command_spec t ∧
    (t ≠ "" → startsWithSlash t = true → pySplit t ≠ []) := by
  constructor
  · unfold parse_command parse_command_spec
    by_cases h : t = "" ∨ startsWithSlash t = false
    · rw [if_pos h, if_pos h]
    · rw [if_neg h, if_neg h]
      push_neg at h
      have h2 : startsWithSlash t = true := by
        have := h.2
        revert this
        cases startsWithSlash t <;> simp
      obtain ⟨cs0, hdata⟩ := startsWithSlash_data t h2
      obtain ⟨tail, rest, hr⟩ := splitAuxW_head cs0 ['/'] (by simp)
      rw [pySplit_slash t cs0 hdata, hr]
      simp [pyDrop1]
  · intro h1 h2
    obtain ⟨cs0, hdata⟩ := startsWithSlash_data t h2
    rw [pySplit_slash t cs0 hdata]
    exact splitAuxW_ne_nil cs0 ['/'] (by simp)

/-- Witness for `parse_command_meets_spec` at `"/Sub x"`. -/
theorem parse_command_meets_spec_witness :
    parse_command "/Sub x" = parse_command_spec "/Sub x" ∧ pySplit "/Sub x" ≠ [] :=
  ⟨(parse_command_meets_spec "/Sub x").1,
   (parse_command_meets_spec "/Sub x").2 (by decide) (by decide)⟩

/-! ## The Command Router: `src/bot/router.py` (C10) -/

/-- The keys of the router's `command_handlers` dict. -/
def knownCmds : List String := ["start", "subscribe", "unsubscribe", "get_latest", "help"]

/-- `process_command` (router.py lines 23-68).  The five command handlers
and `handle_unknown_command` are external collaborators hitting the Store
and the outbound-messaging client; a handler run is abstracted as an oracle
giving the number of messages it sent and its result or raised exception.
The router catches a handler exception and sends one generic error reply;
an unknown command triggers one unknown-command reply.  Returns the
router's boolean result and the total number of outbound sends. -/
def process_command (handler_behavior : String → Nat × Except Unit Bool)
    (router_send_ok : Bool) (message_text : String) : Bool × Nat :=
  match parse_command message_text with
  | (none, _) => (true, 0)
  | (some c, _) =>
    if c = "" then (true, 0)
    else if c ∈ knownCmds then
      match handler_behavior c with
      | (n, Except.ok b) => (b, n)
      | (n, Except.error _) => (router_send_ok, n + 1)
    else (router_send_ok, 1)

/-- C10: for every inbound text that is `/` alone or `/` followed
immediately by whitespace, the parser returns the empty string (not
`none`) as the command name, and the router treats the empty name as a
non-command: it returns success with zero outbound sends, never reaching
the unknown-command reply. -/
theorem empty_command_ignored (t : String)
    (handler_behavior : String → Nat × Except Unit Bool) (router_send_ok : Bool)
    (h : t.data = ['/'] ∨ ∃ c cs, t.data = '/' :: c :: cs ∧ pyIsSpace c = true) :
    (parse_command t).1 = some "" ∧
    process_command handler_behavior router_send_ok t = (true, 0) := by
  have hne : t ≠ "" := by
    intro he
    subst he
    rcases h with h | ⟨c, cs, h, _⟩ <;> simp at h
  have hsw : startsWithSlash t = true := by
    rcases h with h | ⟨c, cs, h, _⟩ <;> simp [startsWithSlash, h]
  obtain ⟨rest, hps⟩ : ∃ rest, pySplit t = String.mk ['/'] :: rest := by
    rcases h with h | ⟨c, cs, h, hsp⟩
    · exact ⟨[], by rw [pySplit_slash t [] h]; simp [splitAuxW]⟩
    · exact ⟨splitAuxW cs [], by rw [pySplit_slash t (c :: cs) h]; simp [splitAuxW, hsp]⟩
  have hpc : parse_command t = (some "", rest) := by
    unfold parse_command
    rw [if_neg (by simp [hne, hsw])]
    rw [hps]
    rfl
  refine ⟨by rw [hpc], ?_⟩
  unfold process_command
  rw [hpc]
  rfl

/-- Witness for `empty_command_ignored` at the bare `"/"` message. -/
theorem empty_command_ignored_witness :
    (parse_command "/").1 = some "" ∧
    process_command (fun _ => (0, Except.ok true)) true "/" = (true, 0) :=
  empty_command_ignored "/" (fun _ => (0, Except.ok true)) true (Or.inl rfl)

/-! ## JSON values and a model of Python `json.loads` (C4)

`json.loads` is Python standard library; it is modelled here by a
recursive-descent parser over code points covering the JSON grammar
(objects, arrays, strings with escapes, numbers, literals), strict about
trailing input, as `json.loads` is.  Python `dict` keeps the last binding
for a duplicated key, so object lookup searches from the right. -/

inductive PyJson where
  | null
  | bool (b : Bool)
  | num (lexeme : String)
  | str (s : String)
  | arr (elems : List PyJson)
  | obj (members : List (String × PyJson))

/-- JSON insignificant whitespace. -/
def jsonWs (c : Char) : Bool := c = ' ' || c = '\t' || c = '\n' || c = '\r'

def skipWs : List Char → List Char
  | [] => []
  | c :: cs => if jsonWs c then skipWs cs else c :: cs

def hexVal (c : Char) : Option Nat :=
  if '0' ≤ c ∧ c ≤ '9' then some (c.toNat - '0'.toNat)
  else if 'a' ≤ c ∧ c ≤ 'f' then some (c.toNat - 'a'.toNat + 10)
  else if 'A' ≤ c ∧ c ≤ 'F' then some (c.toNat - 'A'.toNat + 10)
  else none

/-- JSON string body after the opening quote; `acc` holds decoded
characters, reversed. -/
def parseStringBody : Nat → List Char → List Char → Option (String × List Char)
  | 0, _, _ => none
  | _ + 1, _, [] => none
  | f + 1, acc, c :: cs =>
    if c = '"' then some (String.mk acc.reverse, cs)
    else if c = '\\' then
      match cs with
      | [] => none
      | e :: cs2 =>
        if e = '"' then parseStringBody f ('"' :: acc) cs2
        else if e = '\\' then parseStringBody f ('\\' :: acc) cs2
        else if e = '/' then parseStringBody f ('/' :: acc) cs2
        else if e = 'b' then parseStringBody f ('\x08' :: acc) cs2
        else if e = 'f' then parseStringBody f ('\x0c' :: acc) cs2
        else if e = 'n' then parseStringBody f ('\n' :: acc) cs2
        else if e = 'r' then parseStringBody f ('\r' :: acc) cs2
        else if e = 't' then parseStringBody f ('\t' :: acc) cs2
        else if e = 'u' then
          match cs2 with
          | h1 :: h2 :: h3 :: h4 :: cs3 =>
            match hexVal h1, hexVal h2, hexVal h3, hexVal h4 with
            | some a, some b, some c2, some d =>
              parseStringBody f
                (Char.ofNat (a * 4096 + b * 256 + c2 * 16 + d) :: acc) cs3
            | _, _, _, _ => none
          | _ => none
        else none
    else if c.toNat < 32 then none
    else parseStringBody f (c :: acc) cs

/-- Longest leading digit run. -/
def takeDigits : List Char → List Char × List Char
  | [] => ([], [])
  | c :: cs =>
    if c.isDigit then
      let (d, r) := takeDigits cs
      (c :: d, r)
    else ([], c :: cs)

/-- Optional JSON fraction part. -/
def parseFrac : List Char → List Char × List Char
  | '.' :: c :: cs =>
    if c.isDigit then
      let (d, r) := takeDigits cs
      ('.' :: c :: d, r)
    else ([], '.' :: c :: cs)
  | l => ([], l)

/-- Optional JSON exponent part. -/
def parseExp : List Char → List Char × List Char
  | [] => ([], [])
  | e :: rest =>
    if e = 'e' ∨ e = 'E' then
      match rest with
      | [] => ([], [e])
      | s :: ds =>
        if s = '+' ∨ s = '-' then
          match ds with
          | [] => ([], e :: rest)
          | d :: _ =>
            if d.isDigit then
              let (x, r) := takeDigits ds
              (e :: s :: x, r)
            else ([], e :: rest)
        else if s.isDigit then
          let (x, r) := takeDigits rest
          (e :: x, r)
        else ([], e :: rest)
    else ([], e :: rest)

/-- Unsigned JSON number (no leading zeros except a lone `0`). -/
def parseNumberCore (l : List Char) : Option (List Char × List Char) :=
  match l with
  | [] => none
  | c :: cs =>
    if c = '0' then
      let (fr, r1) := parseFrac cs
      let (ex, r2) := parseExp r1
      some ('0' :: (fr ++ ex), r2)
    else if c.isDigit then
      let (ds, r0) := takeDigits cs
      let (fr, r1) := parseFrac r0
      let (ex, r2) := parseExp r1
      some (c :: (ds ++ fr ++ ex), r2)
    else none

/-- JSON number with optional sign; the lexeme is kept, not interpreted,
since nothing downstream inspects numeric values. -/
def parseNumber (l : List Char) : Option (List Char × List Char) :=
  match l with
  | '-' :: l1 =>
    match parseNumberCore l1 with
    | some (x, r) => some ('-' :: x, r)
    | none => none
  | _ => parseNumberCore l

mutual

def parseValue : Nat → List Char → Option (PyJson × List Char)
  | 0, _ => none
  | f + 1, l =>
    match skipWs l with
    | [] => none
    | c :: cs =>
      if c = '\x7b' then
        match skipWs cs with
        | '\x7d' :: rest => some (PyJson.obj [], rest)
        | l2 =>
          match parseMembers f l2 [] with
          | some (ms, rest) => some (PyJson.obj ms, rest)
          | none => none
      else if c = '[' then
        match skipWs cs with
        | ']' :: rest => some (PyJson.arr [], rest)
        | l2 =>
          match parseElems f l2 [] with
          | some (es, rest) => some (PyJson.arr es, rest)
          | none => none
      else if c = '"' then
        match parseStringBody (cs.length + 1) [] cs with
        | some (s, rest) => some (PyJson.str s, rest)
        | none => none
      else if c = 't' then
        match cs with
        | 'r' :: 'u' :: 'e' :: rest => some (PyJson.bool true, rest)
        | _ => none
      else if c = 'f' then
        match cs with
        | 'a' :: 'l' :: 's' :: 'e' :: rest => some (PyJson.bool false, rest)
        | _ => none
      else if c = 'n' then
        match cs with
        | 'u' :: 'l' :: 'l' :: rest => some (PyJson.null, rest)
        | _ => none
      else if c = 'N' then
        match cs with
        | 'a' :: 'N' :: rest => some (PyJson.num "NaN", rest)
        | _ => none
      else if c = 'I' then
        match cs with
        | 'n' :: 'f' :: 'i' :: 'n' :: 'i' :: 't' :: 'y' :: rest =>
          some (PyJson.num "Infinity", rest)
        | _ => none
      else if c = '-' then
        match cs with
        | 'I' :: 'n' :: 'f' :: 'i' :: 'n' :: 'i' :: 't' :: 'y' :: rest =>
          some (PyJson.num "-Infinity", rest)
        | _ =>
          match parseNumber (c :: cs) with
          | some (lex, rest) => some (PyJson.num (String.mk lex), rest)
          | none => none
      else if c.isDigit then
        match parseNumber (c :: cs) with
        | some (lex, rest) => some (PyJson.num (String.mk lex), rest)
        | none => none
      else none

def parseMembers : Nat → List Char → List (String × PyJson) →
    Option (List (String × PyJson) × List Char)
  | 0, _, _ => none
  | f + 1, l, acc =>
    match skipWs l with
    | '"' :: cs =>
      match parseStringBody (cs.length + 1) [] cs with
      | some (key, r1) =>
        match skipWs r1 with
        | ':' :: r2 =>
          match parseValue f r2 with
          | some (v, r3) =>
            match skipWs r3 with
            | ',' :: r4 => parseMembers f r4 (acc ++ [(key, v)])
            | '\x7d' :: r4 => some (acc ++ [(key, v)], r4)
            | _ => none
          | none => none
        | _ => none
      | none => none
    | _ => none

def parseElems : Nat → List Char → List PyJson → Option (List PyJson × List Char)
  | 0, _, _ => none
  | f + 1, l, acc =>
    match parseValue f l with
    | some (v, r1) =>
      match skipWs r1 with
      | ',' :: r2 => parseElems f r2 (acc ++ [v])
      | ']' :: r2 => some (acc ++ [v], r2)
      | _ => none
    | none => none

end

/-- Python `json.loads`: parse one value, reject trailing input.  The
non-standard constants `NaN`, `Infinity` and `-Infinity`, which
`json.loads` accepts by default, are kept as number lexemes (nothing
downstream inspects numeric values).  The fuel bound exceeds the number of
parser steps possible on the input.  CPython's recursion limit — a runtime
resource bound, like memory — is not modelled. -/
def json_loads (s : String) : Option PyJson :=
  match parseValue (2 * s.data.length + 8) s.data with
  | some (v, rest) => if skipWs rest = [] then some v else none
  | none => none

/-- The characters for which Python `str.isspace()` holds (the set
stripped by no-argument `str.strip()`): U+0009-U+000D, U+001C-U+001F,
U+0020, U+0085, U+00A0, U+1680, U+2000-U+200A, U+2028, U+2029, U+202F,
U+205F, U+3000. -/
def pyUnicodeIsSpace (c : Char) : Bool :=
  (0x09 ≤ c.toNat && c.toNat ≤ 0x0D) || (0x1C ≤ c.toNat && c.toNat ≤ 0x1F) ||
  c.toNat = 0x20 || c.toNat = 0x85 || c.toNat = 0xA0 || c.toNat = 0x1680 ||
  (0x2000 ≤ c.toNat && c.toNat ≤ 0x200A) || c.toNat = 0x2028 ||
  c.toNat = 0x2029 || c.toNat = 0x202F || c.toNat = 0x205F || c.toNat = 0x3000

/-- Python `str.strip()` on code points (strips Unicode whitespace). -/
def pyStripL (l : List Char) : List Char :=
  ((l.dropWhile pyUnicodeIsSpace).reverse.dropWhile pyUnicodeIsSpace).reverse

/-- Python `str.strip()`. -/
def pyStrip (s : String) : String := String.mk (pyStripL s.data)

/-- Python `dict.get(key, default)` (last binding wins on duplicates). -/
def dictGet (members : List (String × PyJson)) (key : String) (dflt : PyJson) :
    PyJson :=
  match members.reverse.find? (fun kv => kv.1 == key) with
  | some kv => kv.2
  | none => dflt

/-- `src/models/news.py` `Summary`.  Python is untyped here: the values
fished out of the parsed reply are stored as-is, so the two payload fields
are JSON values. -/
structure Summary where
  date : Nat
  summary_text : PyJson
  news_count : Nat
  key_topics : PyJson

/-- `NewsSummarizer.summarize_news` from the provider reply onward
(summarizer.py lines 115-131): strip the reply, `json.loads` it; a
`JSONDecodeError` falls back to the raw (stripped) reply text with empty
topics; on a successful parse the code calls `summary_data.get(...)`,
which on a non-dict value raises `AttributeError` — caught by the
enclosing `except Exception`, which returns `None`. -/
def summarize_parse_content (reply : String) (target_date news_count : Nat) :
    Option Summary :=
  match json_loads (pyStrip reply) with
  | none =>
    some ⟨target_date, PyJson.str (pyStrip reply), news_count, PyJson.arr []⟩
  | some (PyJson.obj ms) =>
    some ⟨target_date, dictGet ms "summary" (PyJson.str (pyStrip reply)),
      news_count, dictGet ms "key_topics" (PyJson.arr [])⟩
  | some _ => none

/-- The reply parses as the expected structured result (a JSON object). -/
def parses_structured (reply : String) : Bool :=
  match json_loads (pyStrip reply) with
  | some (PyJson.obj _) => true
  | _ => false

/-- Counterexample to C4 as stated: the reply `"42"` does not parse as the
expected structured result (it is valid JSON, but not an object), yet
`summarize_news` produces no digest at all — `(42).get(...)` raises
`AttributeError`, which the generic failure path swallows into `None`. -/
theorem parse_failure_digest_cex :
    parses_structured "42" = false ∧ summarize_parse_content "42" 0 1 = none :=
  ⟨rfl, rfl⟩

/-- C4 (amended): when the (stripped) provider reply is not valid JSON,
`summarize_news` still produces a digest whose body is that reply text
verbatim with an empty topic list; but a reply that is valid JSON without
being a JSON object makes `summarize_news` return no digest. -/
theorem parse_failure_fallback (reply : String) (target_date news_count : Nat) :
    (json_loads (pyStrip reply) = none →
      summarize_parse_content reply target_date news_count =
        some ⟨target_date, PyJson.str (pyStrip reply), news_count, PyJson.arr []⟩) ∧
    (∀ v, json_loads (pyStrip reply) = some v →
      (match v with | PyJson.obj _ => False | _ => True) →
      summarize_parse_content reply target_date news_count = none) := by
  constructor
  · intro h
    simp only [summarize_parse_content, h]
  · intro v hv hno
    simp only [summarize_parse_content, hv]
    cases v with
    | obj ms => exact hno.elim
    | null => rfl
    | bool b => rfl
    | num x => rfl
    | str s => rfl
    | arr es => rfl

/-- Witness for `parse_failure_fallback`: the spec's own scenario (the
non-JSON reply `"Markets were calm today."`) for the fallback branch, and
the valid-JSON replies `"[1, 2]"` and `"NaN"` (both non-objects) for the
no-digest branch. -/
theorem parse_failure_fallback_witness :
    summarize_parse_content "Markets were calm today." 0 3 =
      some ⟨0, PyJson.str (pyStrip "Markets were calm today."), 3, PyJson.arr []⟩ ∧
    summarize_parse_content "[1, 2]" 0 1 = none ∧
    summarize_parse_content "NaN" 0 1 = none :=
  ⟨(parse_failure_fallback "Markets were calm today." 0 3).1 rfl,
   (parse_failure_fallback "[1, 2]" 0 1).2
     (PyJson.arr [PyJson.num "1", PyJson.num "2"]) rfl trivial,
   (parse_failure_fallback "NaN" 0 1).2 (PyJson.num "NaN") rfl trivial⟩

/-! ## The Digest Generator's prompt construction (C9) -/

/-- Python `sep.join(xs)`. -/
def pyJoin (sep : List Char) : List (List Char) → List Char
  | [] => []
  | x :: rest => rest.foldl (fun a b => a ++ sep ++ b) x

/-- summarizer.py line 88: `[item.text for item in news_items if item.text.strip()]`. -/
def news_texts_of (news_items : List NewsItem) : List (List Char) :=
  (news_items.filter fun i => pyStripL i.text.data ≠ []).map fun i => i.text.data

/-- summarizer.py lines 94-98: `combined_text = "\n\n".join(news_texts)`;
if its length exceeds 8000, replace the text list by the single unit
`combined_text[:8000] + "..."`. -/
def limit_texts (texts : List (List Char)) : List (List Char) :=
  if 8000 < (pyJoin ['\n', '\n'] texts).length then
    [(pyJoin ['\n', '\n'] texts).take 8000 ++ ['.', '.', '.']]
  else texts

/-- `_create_prompt`'s bullet list (summarizer.py line 34):
`"\n".join([f"• {item}" for item in news_items])`. -/
def all_news (texts : List (List Char)) : List Char :=
  pyJoin ['\n'] (texts.map fun t => '•' :: ' ' :: t)

/-- The fixed template of `_create_prompt` up to the date. -/
def promptIntro : String := "\nСегодня "

/-- The fixed template of `_create_prompt` between the date and the text. -/
def promptMid : String := "\n\nДай мне краткое резюме на основе твитов из новостного канала о финансовых рынках. Дай мне только основные новости о мировом рынке и политике, не используй российские новости, криптовалюты, мемы, кроме случаев, когда они важны.\n\nВОТ все твиты:\n\"\n"

/-- The fixed template of `_create_prompt` after the text (the doubled
braces of the Python f-string render as single braces). -/
def promptOutro : String := "\n\"\n\nИспользуй формат как пронумерованный список кратких новостей, отсортированных от самых важных к менее важным.\n\nФормат ответа в JSON:\n\x7b\n    \"summary\": \"Краткий обзор самых важных рыночных событий\",\n    \"key_topics\": [\"важная новость 1\", \"важная новость 2\", ...]\n\x7d\n\nФокусируйся на:\n- Крупных движениях мировых рынков\n- Важных политических событиях, влияющих на рынки\n- Решениях центральных банков\n- Экономических показателях\n- Корпоративных доходах и крупных бизнес-новостях\n- Геополитических событиях с рыночным воздействием\n\nИсключи:\n- Российские внутренние новости (если не глобально значимые)\n- Новости о криптовалютах (если не имеют большого рыночного воздействия)\n- Мемы и шутки (если не важны)\n- Мелкие местные новости\n- Спекуляции без содержания\n\nПиши на русском языке в формате пронумерованного списка.\n"

/-- `NewsSummarizer._create_prompt` (summarizer.py lines 32-70). -/
def create_prompt (date_str : List Char) (texts : List (List Char)) : List Char :=
  promptIntro.data ++ date_str ++ promptMid.data ++ all_news texts ++
    promptOutro.data

/-- Counterexample to C9 as stated: a single 8000-character message text.
Its bullet-prefixed concatenation is 8002 characters — over the budget, so
the claim demands truncation to the budget with an ellipsis — yet the code
measures the un-bulleted `"\n\n"`-join (exactly 8000, within budget) and
embeds the text untruncated, with no ellipsis marker. -/
theorem prompt_budget_cex :
    8000 < (all_news [List.replicate 8000 'a']).length ∧
    limit_texts [List.replicate 8000 'a'] = [List.replicate 8000 'a'] ∧
    all_news (limit_texts [List.replicate 8000 'a']) =
      '•' :: ' ' :: List.replicate 8000 'a' := by
  have hj : pyJoin ['\n', '\n'] [List.replicate 8000 'a'] = List.replicate 8000 'a' := rfl
  have ha : all_news [List.replicate 8000 'a'] = '•' :: ' ' :: List.replicate 8000 'a' := rfl
  have hl : limit_texts [List.replicate 8000 'a'] = [List.replicate 8000 'a'] := by
    unfold limit_texts
    rw [hj, if_neg (by rw [List.length_replicate]; omega)]
  refine ⟨?_, hl, ?_⟩
  · rw [ha]
    norm_num
  · rw [hl, ha]

/-- C9 (amended): the 8000-character budget is applied to the message
texts joined by blank lines *without* bullet prefixes (`"\n\n".join`),
before bullets are added: when that concatenation exceeds 8000 characters,
the text list collapses to the single unit made of its first 8000
characters plus the `"..."` marker (8003 characters, rendered as one
bullet in the prompt); when it does not exceed 8000, each text stays its
own bullet, untruncated; the prompt embeds the bullet list between the
fixed template parts. -/
theorem prompt_budget_bounds (texts : List (List Char)) (date_str : List Char) :
    (8000 < (pyJoin ['\n', '\n'] texts).length →
      limit_texts texts =
        [(pyJoin ['\n', '\n'] texts).take 8000 ++ ['.', '.', '.']] ∧
      ∀ u ∈ limit_texts texts, u.length = 8003) ∧
    ((pyJoin ['\n', '\n'] texts).length ≤ 8000 → limit_texts texts = texts) ∧
    create_prompt date_str (limit_texts texts) =
      promptIntro.data ++ date_str ++ promptMid.data ++
        all_news (limit_texts texts) ++ promptOutro.data := by
  refine ⟨?_, ?_, rfl⟩
  · intro h
    have he : limit_texts texts =
        [(pyJoin ['\n', '\n'] texts).take 8000 ++ ['.', '.', '.']] := by
      unfold limit_texts
      rw [if_pos h]
    refine ⟨he, ?_⟩
    intro u hu
    rw [he, List.mem_singleton] at hu
    subst hu
    rw [List.length_append, List.length_take]
    simp only [List.length_cons, List.length_nil]
    omega
  · intro h
    unfold limit_texts
    rw [if_neg (by omega)]

/-- Witness for `prompt_budget_bounds`: an 8001-character single text
(over budget) and a short two-text list (within budget). -/
theorem prompt_budget_bounds_witness :
    (limit_texts [List.replicate 8001 'a'] =
        [(pyJoin ['\n', '\n'] [List.replicate 8001 'a']).take 8000 ++
          ['.', '.', '.']] ∧
      ∀ u ∈ limit_texts [List.replicate 8001 'a'], u.length = 8003) ∧
    limit_texts [['h', 'i'], ['y', 'o']] = [['h', 'i'], ['y', 'o']] :=
  ⟨(prompt_budget_bounds [List.replicate 8001 'a'] []).1
      (by rw [show pyJoin ['\n', '\n'] [List.replicate 8001 'a'] =
            List.replicate 8001 'a' from rfl, List.length_replicate]; omega),
   (prompt_budget_bounds [['h', 'i'], ['y', 'o']] []).2.1 (by norm_num [pyJoin])⟩

end MarketTwits
